import Mathlib

/-!
Verification of the multichrome auxiliary audio features against their
specification.  Each module of the player (crossfade scheduler, graphic
equalizer, shared audio-graph composition, AutoEQ preset conversion and
listening statistics) is shallowly embedded: its mutable object state becomes
a structure, each method a function on that structure, numbers become exact
rationals (reals where the code takes `Math.log`/`Math.exp`), `localStorage`
entries become explicit stored values.
-/

namespace Crossfade

/-! ## Crossfade scheduler (js/crossfade.js)

The manager holds `enabled`, `duration` (seconds), `fadeOutStarted`,
`volumeMultiplier`.  `handleTimeUpdate` starts a fade-out when the remaining
playback time crosses the configured duration; `startCrossfade` runs a 60-step
interval ramp that lowers `volumeMultiplier` and advances to the next track
once, if playback is still active when the ramp stops. -/

/-- One `timeupdate` event: the observable playback-element properties the
handler reads (`audio.currentTime`, `audio.duration`, `audio.paused`). -/
structure TimeUpdate where
  currentTime : ℚ
  audioDuration : ℚ
  paused : Bool
deriving DecidableEq

/-- The trigger condition of `handleTimeUpdate`:
`timeRemaining > 0 && timeRemaining <= this.duration && !audio.paused`. -/
def triggersFade (d : ℚ) (e : TimeUpdate) : Bool :=
  let rem := e.audioDuration - e.currentTime
  decide (0 < rem) && decide (rem ≤ d) && !e.paused

/-- Folding `handleTimeUpdate` over a stream of `timeupdate` events, counting
how many times `startCrossfade` is invoked.  The guard
`if (!this.enabled || this.fadeOutStarted) return;` skips the event;
`startCrossfade` immediately sets `fadeOutStarted = true`. -/
def countFadeStarts (enabled : Bool) (d : ℚ) : Bool → List TimeUpdate → ℕ
  | _, [] => 0
  | started, e :: es =>
    if !enabled || started then countFadeStarts enabled d started es
    else if triggersFade d e then 1 + countFadeStarts enabled d true es
    else countFadeStarts enabled d false es

/-- `fadeSteps = 60` of `startCrossfade`. -/
def fadeSteps : ℕ := 60

/-- The per-cycle state of the fade-out interval: the local `step` counter and
the manager's `volumeMultiplier`. -/
structure FadeOutState where
  step : ℕ
  volumeMultiplier : ℚ
deriving DecidableEq

/-- State when `startCrossfade` installs the interval: `step = 0` and (per the
`play` listener) `volumeMultiplier = 1.0`. -/
def initialFadeOut : FadeOutState := ⟨0, 1⟩

/-- One tick of the fade-out interval:
`step++; volumeMultiplier = Math.max(0, 1.0 - step / fadeSteps)`. -/
def fadeOutTick (s : FadeOutState) : FadeOutState :=
  { step := s.step + 1
    volumeMultiplier := max 0 (1 - ((s.step + 1 : ℕ) : ℚ) / (fadeSteps : ℚ)) }

/-- The interval's stop condition after a tick:
`step >= fadeSteps || audio.paused || audio.ended`; `paused`/`ended` give the
playback element's flags as observed at tick `k`. -/
def fadeStop (paused ended : ℕ → Bool) (s : FadeOutState) : Bool :=
  decide (fadeSteps ≤ s.step) || paused s.step || ended s.step

/-- Run the fade-out interval to completion (`fuel` bounds the ticks; 60
suffices from a fresh cycle).  Returns the final state and how many times
`this.player.playNext()` was called: the interval is cleared at the stop
condition, and `playNext` fires there iff `!audio.paused && !audio.ended`. -/
def fadeOutRun (paused ended : ℕ → Bool) : ℕ → FadeOutState → FadeOutState × ℕ
  | 0, s => (s, 0)
  | fuel + 1, s =>
    let t := fadeOutTick s
    if fadeStop paused ended t then
      (t, if !paused t.step && !ended t.step then 1 else 0)
    else fadeOutRun paused ended fuel t

/-- The persisted settings of the manager: `enabled` and `duration`. -/
structure CrossfadeSettings where
  enabled : Bool
  duration : ℚ
deriving DecidableEq

/-- Constructor defaults: `enabled = false`, `duration = 5`. -/
def initialSettings : CrossfadeSettings := ⟨false, 5⟩

/-- `setDuration(duration) { this.duration = Math.max(1, Math.min(12, duration)); }` -/
def setDuration (d : ℚ) (s : CrossfadeSettings) : CrossfadeSettings :=
  { s with duration := max 1 (min 12 d) }

/-- The integer value of a run of decimal digit characters (most significant
first), as `parseInt` accumulates it. -/
def digitsVal (cs : List Char) : ℕ :=
  cs.foldl (fun a c => a * 10 + (c.toNat - 48)) 0

/-- JavaScript `parseInt(str, 10)`: skip leading whitespace, read an optional
sign and then the longest prefix of decimal digits; `none` models `NaN` (no
digit to read). -/
def jsParseInt (str : String) : Option ℤ :=
  let cs := str.toList.dropWhile fun c => c = ' ' || c = '\t' || c = '\n' || c = '\r'
  match cs with
  | '-' :: rest =>
    if (rest.headD 'x').isDigit then some (-(digitsVal (rest.takeWhile Char.isDigit) : ℤ))
    else none
  | '+' :: rest =>
    if (rest.headD 'x').isDigit then some ((digitsVal (rest.takeWhile Char.isDigit) : ℤ))
    else none
  | _ =>
    if (cs.headD 'x').isDigit then some ((digitsVal (cs.takeWhile Char.isDigit) : ℤ))
    else none

/-- `loadSettings()`: `enabled` becomes `localStorage value === 'true'`; if the
stored duration string is truthy (present and non-empty),
`this.duration = parseInt(duration, 10)` with no clamping.  (On an unparsable
non-empty string the code would assign `NaN`; that branch keeps the previous
duration here and no claim depends on it.) -/
def loadSettings (storedEnabled storedDuration : Option String)
    (s : CrossfadeSettings) : CrossfadeSettings :=
  let s1 : CrossfadeSettings := { s with enabled := storedEnabled = some "true" }
  match storedDuration with
  | none => s1
  | some str =>
    if str = "" then s1
    else
      match jsParseInt str with
      | some n => { s1 with duration := (n : ℚ) }
      | none => s1

end Crossfade

namespace Equalizer

/-! ## Graphic equalizer (js/equalizer.js)

`AudioEqualizer` keeps ten fixed bands, a parallel array of biquad filter
nodes, an enabled flag and an initialization flag; settings are saved to the
`equalizer-settings` localStorage key. -/

/-- One band definition `{ frequency, gain, q, name }`. -/
structure Band where
  frequency : ℚ
  gain : ℚ
  q : ℚ
  name : String
deriving DecidableEq

/-- `this.bands` as the constructor builds them. -/
def defaultBands : List Band :=
  [⟨60, 0, 1, "60Hz"⟩, ⟨170, 0, 1, "170Hz"⟩, ⟨310, 0, 1, "310Hz"⟩,
   ⟨600, 0, 1, "600Hz"⟩, ⟨1000, 0, 1, "1kHz"⟩, ⟨3000, 0, 1, "3kHz"⟩,
   ⟨6000, 0, 1, "6kHz"⟩, ⟨12000, 0, 1, "12kHz"⟩, ⟨14000, 0, 1, "14kHz"⟩,
   ⟨16000, 0, 1, "16kHz"⟩]

/-- The `equalizer-settings` localStorage entry as `loadSettings` sees it:
absent, unparsable JSON, or a parsed object whose `gains` member may be
missing (`enabled` absent reads back as `false` via `|| false`). -/
inductive StoredSettings
  | missing
  | corrupt
  | valid (enabled : Bool) (gains : Option (List ℚ))
deriving DecidableEq

/-- The equalizer's state: the init flag, the enabled flag, the band gains
(`this.bands[i].gain`), the filter-node gains (`this.filters[i].gain.value`,
empty before `init`), how many audio contexts / media-element source nodes
this object created, and the persisted settings entry. -/
structure EqState where
  isInitialized : Bool
  isEnabled : Bool
  gains : List ℚ
  filterGains : List ℚ
  contextsCreated : ℕ
  sourcesCreated : ℕ
  stored : StoredSettings
deriving DecidableEq

/-- `saveSettings()`: writes `{ enabled: this.isEnabled, gains: this.getAllGains() }`. -/
def saveSettings (s : EqState) : EqState :=
  { s with stored := .valid s.isEnabled (some s.gains) }

/-- Replay a saved gains array onto the default band gains:
`settings.gains.forEach((gain, index) => { if (this.bands[index]) this.bands[index].gain = gain; })`.
Entries beyond the band count are dropped; bands beyond the array keep their
default. -/
def overlay : List ℚ → List ℚ → List ℚ
  | ds, [] => ds
  | [], _ => []
  | _ :: ds, a :: rest => a :: overlay ds rest

/-- `loadSettings()` at construction: the `(enabled, band gains)` pair a fresh
`AudioEqualizer` ends up with, given the stored entry.  A missing key or a
parse failure leaves the defaults (all-zero gains, disabled). -/
def loadSettings (sv : StoredSettings) : Bool × List ℚ :=
  match sv with
  | .missing => (false, defaultBands.map Band.gain)
  | .corrupt => (false, defaultBands.map Band.gain)
  | .valid e none => (e, defaultBands.map Band.gain)
  | .valid e (some arr) => (e, overlay (defaultBands.map Band.gain) arr)

/-- `init(sharedAudioContext, sharedSourceNode)`: a no-op when already
initialized; otherwise creates a context and a media-element source only when
no shared ones are passed, builds one filter node per band with the band's
gain, and sets `isInitialized`. -/
def eqInit (shared : Bool) (s : EqState) : EqState :=
  if s.isInitialized then s
  else
    { s with
      isInitialized := true
      contextsCreated := s.contextsCreated + (if shared then 0 else 1)
      sourcesCreated := s.sourcesCreated + (if shared then 0 else 1)
      filterGains := s.gains }

/-- The clamp of `setGain`: `Math.max(-12, Math.min(12, gain))`. -/
def clamp12 (g : ℚ) : ℚ := max (-12) (min 12 g)

/-- `setGain(bandIndex, gain)`: a no-op when uninitialized or
`this.filters[bandIndex]` does not exist; otherwise stores the clamped gain on
the filter node and the band, then `saveSettings()`. -/
def setGain (i : ℕ) (g : ℚ) (s : EqState) : EqState :=
  if s.isInitialized = false ∨ s.filterGains.length ≤ i then s
  else
    saveSettings
      { s with
        filterGains := s.filterGains.set i (clamp12 g)
        gains := s.gains.set i (clamp12 g) }

/-- The state of a freshly constructed `AudioEqualizer` with nothing stored:
uninitialized, disabled, default band gains, no filter nodes, no created
contexts or sources. -/
def freshEq : EqState :=
  ⟨false, false, defaultBands.map Band.gain, [], 0, 0, .missing⟩

/-- A concrete initialized equalizer state with distinct gains, for witnesses. -/
def sampleState : EqState :=
  ⟨true, true, [1, 2, 3, 4, 5, 6, 7, 8, 9, 10],
   [1, 2, 3, 4, 5, 6, 7, 8, 9, 10], 0, 0, .missing⟩

end Equalizer

namespace Specials

/-! ## Shared audio-graph composition (js/specials.js)

`SpecialsManager.initializeAudioGraph` guards on `audioGraphInitialized`,
creates one audio context and one media-element source node, and initializes
the equalizer with them shared. -/

/-- The graph-owning state of `SpecialsManager`: the composed flag, how many
contexts / source nodes this object created, and the equalizer it drives. -/
structure GraphState where
  audioGraphInitialized : Bool
  contextsCreated : ℕ
  sourcesCreated : ℕ
  eq : Equalizer.EqState
deriving DecidableEq

/-- `initializeAudioGraph()`: `if (this.audioGraphInitialized) return;` then
create the context and the source node, call
`equalizer.init(audioContext, sourceNode)` (shared), wire the chain, and set
the flag. -/
def initializeAudioGraph (g : GraphState) : GraphState :=
  if g.audioGraphInitialized then g
  else
    { audioGraphInitialized := true
      contextsCreated := g.contextsCreated + 1
      sourcesCreated := g.sourcesCreated + 1
      eq := Equalizer.eqInit true g.eq }

/-- The manager's state right after construction: nothing composed, nothing
created. -/
def freshGraph : GraphState := ⟨false, 0, 0, Equalizer.freshEq⟩

/-- Audio contexts ever created across the manager and its equalizer. -/
def totalContexts (g : GraphState) : ℕ :=
  g.contextsCreated + g.eq.contextsCreated

/-- Media-element source nodes ever created across the manager and its
equalizer. -/
def totalSources (g : GraphState) : ℕ :=
  g.sourcesCreated + g.eq.sourcesCreated

end Specials

namespace AutoEQ

/-! ## AutoEQ preset conversion (js/autoeq.js)

`calculateFilterResponse` approximates a parametric filter's gain contribution
at a target frequency; `convertToGraphicEQ` sums the contributions per band
and clamps to ±12 dB.  `Math.log`/`Math.exp` become `Real.log`/`Real.exp`. -/

/-- The parsed filter type: `PK` (peaking), `LSQ` (low shelf), `HSQ`
(high shelf); any other tag falls to the peaking branch. -/
inductive FilterType
  | PK
  | LSQ
  | HSQ
deriving DecidableEq

/-- A parsed parametric filter `{ type, frequency, gain, q }`. -/
structure ParamFilter where
  type : FilterType
  frequency : ℝ
  gain : ℝ
  q : ℝ

/-- `calculateFilterResponse(centerFreq, gain, q, targetFreq, type)`:
* `LSQ`: full `gain` for `targetFreq <= centerFreq`, else
  `gain * exp(-(ratio*ratio) / (2*q*q))` with
  `ratio = Math.log(targetFreq/centerFreq) / Math.log(2)`;
* `HSQ`: full `gain` for `targetFreq >= centerFreq`, else the same with
  `ratio = Math.log(centerFreq/targetFreq) / Math.log(2)`;
* `PK` (default): `gain * exp(-(ratio*ratio) / (q*q))`. -/
noncomputable def calculateFilterResponse
    (centerFreq gain q targetFreq : ℝ) : FilterType → ℝ
  | .LSQ =>
    if targetFreq ≤ centerFreq then gain
    else
      gain * Real.exp (-(Real.log (targetFreq / centerFreq) / Real.log 2 *
        (Real.log (targetFreq / centerFreq) / Real.log 2)) / (2 * q * q))
  | .HSQ =>
    if centerFreq ≤ targetFreq then gain
    else
      gain * Real.exp (-(Real.log (centerFreq / targetFreq) / Real.log 2 *
        (Real.log (centerFreq / targetFreq) / Real.log 2)) / (2 * q * q))
  | .PK =>
    gain * Real.exp (-(Real.log (targetFreq / centerFreq) / Real.log 2 *
      (Real.log (targetFreq / centerFreq) / Real.log 2) / (q * q)))

/-- `convertToGraphicEQ(parametricFilters, targetBands)`: for each target
band frequency, sum every filter's contribution there and clamp the sum with
`Math.max(-12, Math.min(12, totalGain))`. -/
noncomputable def convertToGraphicEQ
    (filters : List ParamFilter) (targetBands : List ℝ) : List ℝ :=
  targetBands.map fun f =>
    max (-12) (min 12 (filters.foldl
      (fun acc flt =>
        acc + calculateFilterResponse flt.frequency flt.gain flt.q f flt.type)
      0))

/-- The ten graphic-EQ band center frequencies, exactly as `this.bands`
defines them. -/
def bandFreqsQ : List ℚ := Equalizer.defaultBands.map Equalizer.Band.frequency

/-- The band frequencies as the reals the conversion computes with. -/
noncomputable def bandFreqsR : List ℝ := bandFreqsQ.map fun x => (x : ℝ)

/-- The single test filter of the specification: peaking, 1000 Hz, +6 dB,
Q = 1. -/
def pk1000 : ParamFilter := ⟨.PK, 1000, 6, 1⟩

end AutoEQ

namespace Stats

/-! ## Listening statistics (js/listening-stats.js)

`ListeningStats` holds the active session (`currentTrack`, `startTime`,
`isPlaying`) and the aggregate `stats` object.  JavaScript objects keyed by id
become association lists; timestamps are rationals (milliseconds). -/

/-- The track reference a session is started with, with the identifiers and
display metadata `updateStats` reads off it (`track.artist?.id` and
`track.artists?.[0]?.id` collapse to one optional artist id). -/
structure Track where
  id : String
  artistId : Option String
  albumId : Option String
  title : String
  artistName : String
  albumName : String
  cover : String
deriving DecidableEq

/-- A per-track aggregate `{ count, totalTime, lastPlayed, title, artist,
album, cover }`. -/
structure TrackStat where
  count : ℕ
  totalTime : ℚ
  lastPlayed : Option ℚ
  title : String
  artist : String
  album : String
  cover : String
deriving DecidableEq

/-- A per-artist aggregate `{ count, totalTime, name }`. -/
structure ArtistStat where
  count : ℕ
  totalTime : ℚ
  name : String
deriving DecidableEq

/-- A per-album aggregate `{ count, totalTime, title, artist, cover }`. -/
structure AlbumStat where
  count : ℕ
  totalTime : ℚ
  title : String
  artist : String
  cover : String
deriving DecidableEq

/-- One history entry `{ trackId, timestamp, duration }`. -/
structure HistEntry where
  trackId : String
  timestamp : ℚ
  duration : ℚ
deriving DecidableEq

/-- The persisted aggregate `this.stats`. -/
structure StatsData where
  tracks : List (String × TrackStat)
  artists : List (String × ArtistStat)
  albums : List (String × AlbumStat)
  history : List HistEntry
  totalListenTime : ℚ
  startDate : ℚ
deriving DecidableEq

/-- The `if (!map[k]) map[k] = default; then mutate map[k]` idiom on a keyed
object: create the entry at the end if missing, then apply the mutation. -/
def upsert {α : Type} (k : String) (d : α) (f : α → α) :
    List (String × α) → List (String × α)
  | [] => [(k, f d)]
  | (k2, v) :: rest =>
    if k2 = k then (k2, f v) :: rest else (k2, v) :: upsert k d f rest

/-- `history.push(entry)` followed by
`if (history.length > 1000) history = history.slice(-1000)`. -/
def histPush (h : List HistEntry) (e : HistEntry) : List HistEntry :=
  let h2 := h ++ [e]
  if 1000 < h2.length then h2.drop (h2.length - 1000) else h2

/-- The fresh per-track entry `updateStats` creates before mutating it. -/
def newTrackStat (tr : Track) : TrackStat :=
  ⟨0, 0, none, tr.title, tr.artistName, tr.albumName, tr.cover⟩

/-- The mutation `updateStats` applies to the track entry: `count++`,
`totalTime += listenTime`, `lastPlayed = Date.now()`. -/
def bumpTrackStat (listenTime now : ℚ) (t : TrackStat) : TrackStat :=
  { t with count := t.count + 1, totalTime := t.totalTime + listenTime,
           lastPlayed := some now }

/-- `updateStats(track, listenTime)`: bump the track / artist / album
aggregates (artist and album only when their id exists), append a history
entry with FIFO eviction past 1000, and accumulate `totalListenTime`. -/
def updateStats (tr : Track) (listenTime now : ℚ) (d : StatsData) : StatsData :=
  let tracks2 := upsert tr.id (newTrackStat tr) (bumpTrackStat listenTime now) d.tracks
  let artists2 :=
    match tr.artistId with
    | none => d.artists
    | some aid =>
      upsert aid ⟨0, 0, tr.artistName⟩
        (fun a => { a with count := a.count + 1, totalTime := a.totalTime + listenTime })
        d.artists
  let albums2 :=
    match tr.albumId with
    | none => d.albums
    | some bid =>
      upsert bid ⟨0, 0, tr.albumName, tr.artistName, tr.cover⟩
        (fun a => { a with count := a.count + 1, totalTime := a.totalTime + listenTime })
        d.albums
  { d with
    tracks := tracks2
    artists := artists2
    albums := albums2
    history := histPush d.history ⟨tr.id, now, listenTime⟩
    totalListenTime := d.totalListenTime + listenTime }

/-- The tracker's session state. -/
structure TrackerState where
  currentTrack : Option Track
  startTime : Option ℚ
  isPlaying : Bool
  stats : StatsData
deriving DecidableEq

/-- `startTracking(track)`: a no-op without a track or a (truthy) track id;
otherwise record the session and its baseline. -/
def startTracking (track : Option Track) (now : ℚ) (s : TrackerState) : TrackerState :=
  match track with
  | none => s
  | some tr =>
    if tr.id = "" then s
    else { s with currentTrack := some tr, startTime := some now, isPlaying := true }

/-- `pauseTracking()` at wall-clock `now` (milliseconds): guarded by
`if (!this.isPlaying || !this.currentTrack || !this.startTime) return;`;
commits via `updateStats` only when the elapsed seconds reach 30, and clears
`isPlaying`. -/
def pauseTracking (now : ℚ) (s : TrackerState) : TrackerState :=
  match s.isPlaying, s.currentTrack, s.startTime with
  | true, some tr, some t0 =>
    let listenTime := (now - t0) / 1000
    let stats2 := if 30 ≤ listenTime then updateStats tr listenTime now s.stats else s.stats
    { s with stats := stats2, isPlaying := false }
  | _, _, _ => s

/-- `resumeTracking()`: restart the baseline of the existing session. -/
def resumeTracking (now : ℚ) (s : TrackerState) : TrackerState :=
  match s.currentTrack with
  | none => s
  | some _ => { s with startTime := some now, isPlaying := true }

/-- `stopTracking()`: `pauseTracking()` then clear the session. -/
def stopTracking (now : ℚ) (s : TrackerState) : TrackerState :=
  let s2 := pauseTracking now s
  { s2 with currentTrack := none, startTime := none }

/-- A concrete track, for witnesses. -/
def sampleTrack : Track :=
  ⟨"t1", some "a1", some "b1", "Song", "Artist", "Album", ""⟩

/-- The empty aggregate (what `loadStats` returns with nothing persisted, at
epoch 0). -/
def emptyStats : StatsData := ⟨[], [], [], [], 0, 0⟩

/-- A tracker with an active session on `sampleTrack` started at time 0. -/
def sampleTracker : TrackerState := ⟨some sampleTrack, some 0, true, emptyStats⟩

end Stats

/-! ## Theorems -/

namespace Crossfade

/-- Once the fade-out flag is set, later time updates never start another
cycle. -/
lemma countFadeStarts_started (enabled : Bool) (d : ℚ) :
    ∀ es : List TimeUpdate, countFadeStarts enabled d true es = 0 := by
  intro es
  induction es with
  | nil => rfl
  | cons e es ih => simp [countFadeStarts, ih]

/-- At most one fade-out cycle starts over any event stream. -/
lemma countFadeStarts_le_one (enabled : Bool) (d : ℚ) :
    ∀ (st : Bool) (es : List TimeUpdate), countFadeStarts enabled d st es ≤ 1 := by
  intro st es
  induction es generalizing st with
  | nil => simp [countFadeStarts]
  | cons e es ih =>
    rcases st with _ | _
    · rcases henabled : enabled with _ | _
      · simpa [countFadeStarts, henabled] using ih false
      · by_cases htr : triggersFade d e = true
        · simp [countFadeStarts, henabled, htr, countFadeStarts_started]
        · simpa [countFadeStarts, henabled, htr] using ih false
    · simpa [countFadeStarts] using ih true

/-- A stream with a triggering update (crossfade enabled, no fade in
progress) starts exactly one cycle. -/
lemma countFadeStarts_eq_one (d : ℚ) :
    ∀ es : List TimeUpdate, (∃ ev ∈ es, triggersFade d ev = true) →
    countFadeStarts true d false es = 1 := by
  intro es htrig
  induction es with
  | nil => simp at htrig
  | cons e es ih =>
    by_cases htr : triggersFade d e = true
    · simp [countFadeStarts, htr, countFadeStarts_started]
    · rcases htrig with ⟨ev, hmem, hev⟩
      rcases List.mem_cons.mp hmem with rfl | hmem2
      · exact absurd hev htr
      · simpa [countFadeStarts, htr] using ih ⟨ev, hmem2, hev⟩

/-- The interval's `step` counter after `k` ticks. -/
lemma fadeOut_step_iterate :
    ∀ k : ℕ, (fadeOutTick^[k] initialFadeOut).step = k := by
  intro k
  induction k with
  | zero => rfl
  | succ k ih => rw [Function.iterate_succ_apply']; simp [fadeOutTick, ih]

/-- The volume multiplier after `k` ticks: `max(0, 1 - k/60)`. -/
lemma fadeOut_vol_iterate :
    ∀ k : ℕ, (fadeOutTick^[k] initialFadeOut).volumeMultiplier
      = max 0 (1 - (k : ℚ) / 60) := by
  intro k
  cases k with
  | zero =>
    show (1 : ℚ) = max 0 (1 - 0 / 60)
    norm_num
  | succ k =>
    rw [Function.iterate_succ_apply']
    show max 0 (1 - (((fadeOutTick^[k] initialFadeOut).step + 1 : ℕ) : ℚ) / (fadeSteps : ℚ)) = _
    rw [fadeOut_step_iterate k]
    norm_num [fadeSteps]

/-- The fade-out run's `playNext` count: with enough fuel, it is 1 exactly
when playback is neither paused nor ended at the tick where the interval is
cleared. -/
lemma fadeOutRun_playNext (p e : ℕ → Bool) :
    ∀ (fuel : ℕ) (s : FadeOutState), 1 ≤ fuel → 60 ≤ fuel + s.step →
    (fadeOutRun p e fuel s).2
      = if p (fadeOutRun p e fuel s).1.step = false
           ∧ e (fadeOutRun p e fuel s).1.step = false then 1 else 0 := by
  intro fuel
  induction fuel with
  | zero => intro s h1 _; exact absurd h1 (by norm_num)
  | succ f ih =>
    intro s _ h2
    have hunfold : fadeOutRun p e (f + 1) s
        = if fadeStop p e (fadeOutTick s) then
            (fadeOutTick s,
              if !p (fadeOutTick s).step && !e (fadeOutTick s).step then 1 else 0)
          else fadeOutRun p e f (fadeOutTick s) := rfl
    by_cases hstop : fadeStop p e (fadeOutTick s) = true
    · rw [hunfold, if_pos hstop]
      rcases hp : p (fadeOutTick s).step with _ | _ <;>
        rcases he : e (fadeOutTick s).step with _ | _ <;>
          simp [hp, he]
    · have hstep : (fadeOutTick s).step = s.step + 1 := rfl
      have hlt : ¬(60 ≤ (fadeOutTick s).step) := by
        intro hge
        apply hstop
        simp [fadeStop, fadeSteps, hge]
      rw [hunfold, if_neg (by simpa using hstop)]
      exact ih (fadeOutTick s) (by omega) (by omega)

end Crossfade

/-- C1: with crossfade enabled and no fade-out in progress, a time update
with `0 < duration - currentTime ≤ configuredDuration` (not paused) starts
exactly one fade-out cycle (and never more than one over any stream); the
volume multiplier after `k` ticks is `max(0, 1 - k/60)`, decreasing
monotonically from 1 at step 0 to 0 at step 60; and the run of the fade-out
interval calls `playNext` exactly once — iff playback is neither paused nor
ended when the ramp stops — so at most once per cycle. -/
theorem C1_crossfade_fadeout_cycle (d : ℚ) (evs : List Crossfade.TimeUpdate)
    (p e : ℕ → Bool)
    (htrig : ∃ ev ∈ evs, Crossfade.triggersFade d ev = true) :
    Crossfade.countFadeStarts true d false evs = 1
    ∧ (∀ (enabled started : Bool) (evs2 : List Crossfade.TimeUpdate),
        Crossfade.countFadeStarts enabled d started evs2 ≤ 1)
    ∧ (∀ k : ℕ,
        (Crossfade.fadeOutTick^[k] Crossfade.initialFadeOut).volumeMultiplier
          = max 0 (1 - (k : ℚ) / 60))
    ∧ (∀ j k : ℕ, j ≤ k →
        (Crossfade.fadeOutTick^[k] Crossfade.initialFadeOut).volumeMultiplier
          ≤ (Crossfade.fadeOutTick^[j] Crossfade.initialFadeOut).volumeMultiplier)
    ∧ (Crossfade.fadeOutTick^[0] Crossfade.initialFadeOut).volumeMultiplier = 1
    ∧ (Crossfade.fadeOutTick^[60] Crossfade.initialFadeOut).volumeMultiplier = 0
    ∧ (Crossfade.fadeOutRun p e 60 Crossfade.initialFadeOut).2
        = (if p (Crossfade.fadeOutRun p e 60 Crossfade.initialFadeOut).1.step = false
              ∧ e (Crossfade.fadeOutRun p e 60 Crossfade.initialFadeOut).1.step = false
           then 1 else 0)
    ∧ (Crossfade.fadeOutRun p e 60 Crossfade.initialFadeOut).2 ≤ 1 := by
  have hvol := Crossfade.fadeOut_vol_iterate
  have hrun := Crossfade.fadeOutRun_playNext p e 60 Crossfade.initialFadeOut
    (by norm_num) (by norm_num [Crossfade.initialFadeOut])
  refine ⟨Crossfade.countFadeStarts_eq_one d evs htrig,
    fun enabled st evs2 => Crossfade.countFadeStarts_le_one enabled d st evs2,
    hvol, ?_, by simpa using hvol 0, by simpa using hvol 60, hrun, ?_⟩
  · intro j k hjk
    rw [hvol j, hvol k]
    have hc : (j : ℚ) ≤ (k : ℚ) := by exact_mod_cast hjk
    exact max_le_max le_rfl (by linarith)
  · rw [hrun]
    split <;> norm_num

/-- C1 witness: with duration 5 s, a single update at 296/300 s (4 s
remaining, playing) starts exactly one fade-out cycle. -/
theorem C1_crossfade_fadeout_cycle_witness :
    Crossfade.countFadeStarts true 5 false [⟨296, 300, false⟩] = 1 :=
  (C1_crossfade_fadeout_cycle 5 [⟨296, 300, false⟩]
    (fun _ => false) (fun _ => false)
    ⟨⟨296, 300, false⟩, by simp, by norm_num [Crossfade.triggersFade]⟩).1

namespace Equalizer

/-- `init` is idempotent: a second call with the same sharing mode changes
nothing. -/
lemma eqInit_idem (shared : Bool) (s : EqState) :
    eqInit shared (eqInit shared s) = eqInit shared s := by
  by_cases h : s.isInitialized <;> simp [eqInit, h]

end Equalizer

namespace Specials

/-- `initializeAudioGraph` is idempotent. -/
lemma initializeAudioGraph_idem (g : GraphState) :
    initializeAudioGraph (initializeAudioGraph g) = initializeAudioGraph g := by
  by_cases h : g.audioGraphInitialized <;> simp [initializeAudioGraph, h]

/-- Iterating graph setup from the fresh manager state stabilizes after the
first call. -/
lemma iterate_initializeAudioGraph (n : ℕ) :
    initializeAudioGraph^[n] freshGraph
      = if n = 0 then freshGraph else initializeAudioGraph freshGraph := by
  induction n with
  | zero => rfl
  | succ n ih =>
    rw [Function.iterate_succ_apply', ih]
    rcases n with _ | n
    · simp
    · simp [initializeAudioGraph_idem]

end Specials

/-- C2: audio-graph composition is idempotent — a second `initializeAudioGraph`
while composed is a no-op (likewise a second `equalizer.init`), and over any
number of setup calls from the fresh manager state at most one audio context
and at most one media-element source node are ever created. -/
theorem C2_graph_composition_idempotent :
    (∀ g : Specials.GraphState,
        Specials.initializeAudioGraph (Specials.initializeAudioGraph g)
          = Specials.initializeAudioGraph g)
    ∧ (∀ (shared : Bool) (s : Equalizer.EqState),
        Equalizer.eqInit shared (Equalizer.eqInit shared s)
          = Equalizer.eqInit shared s)
    ∧ (∀ n : ℕ,
        Specials.totalContexts
          (Specials.initializeAudioGraph^[n] Specials.freshGraph) ≤ 1
        ∧ Specials.totalSources
          (Specials.initializeAudioGraph^[n] Specials.freshGraph) ≤ 1) := by
  refine ⟨Specials.initializeAudioGraph_idem, Equalizer.eqInit_idem, ?_⟩
  intro n
  rw [Specials.iterate_initializeAudioGraph n]
  rcases n with _ | n
  · simp [Specials.totalContexts, Specials.totalSources, Specials.freshGraph,
      Equalizer.freshEq]
  · simp [Specials.totalContexts, Specials.totalSources, Specials.freshGraph,
      Specials.initializeAudioGraph, Equalizer.eqInit, Equalizer.freshEq]

/-- C3: for valid state and band index, `setGain(bandIndex, db)` stores
exactly `max(-12, min(12, db))` as that band's gain (on the band and on the
filter node) and persists the full updated gain vector; when uninitialized or
the index is out of range it changes nothing. -/
theorem C3_setGain_clamps (s : Equalizer.EqState) (i : ℕ) (g : ℚ)
    (h1 : s.isInitialized = true) (h2 : i < s.filterGains.length) :
    (Equalizer.setGain i g s).gains = s.gains.set i (max (-12) (min 12 g))
    ∧ (Equalizer.setGain i g s).filterGains
        = s.filterGains.set i (max (-12) (min 12 g))
    ∧ (Equalizer.setGain i g s).stored
        = .valid s.isEnabled (some (s.gains.set i (max (-12) (min 12 g))))
    ∧ (∀ (s2 : Equalizer.EqState) (j : ℕ) (g2 : ℚ),
        s2.isInitialized = false ∨ s2.filterGains.length ≤ j →
        Equalizer.setGain j g2 s2 = s2) := by
  have hcond : ¬(s.isInitialized = false ∨ s.filterGains.length ≤ i) := by
    rintro (hf | hle)
    · rw [h1] at hf; exact absurd hf (by simp)
    · omega
  refine ⟨?_, ?_, ?_, ?_⟩
  · simp [Equalizer.setGain, hcond, Equalizer.saveSettings, Equalizer.clamp12]
  · simp [Equalizer.setGain, hcond, Equalizer.saveSettings, Equalizer.clamp12]
  · simp [Equalizer.setGain, hcond, Equalizer.saveSettings, Equalizer.clamp12]
  · intro s2 j g2 h
    simp [Equalizer.setGain, h]

/-- C3 witness: on an initialized state, `setGain(0, 50)` stores 12 at band 0
and leaves the other gains unchanged. -/
theorem C3_setGain_clamps_witness :
    (Equalizer.setGain 0 50 Equalizer.sampleState).gains
      = [12, 2, 3, 4, 5, 6, 7, 8, 9, 10] := by
  have h := (C3_setGain_clamps Equalizer.sampleState 0 50 rfl (by decide)).1
  rw [h]
  decide

namespace Equalizer

/-- Replaying a saved gains array of exactly the band count onto the defaults
reproduces the array. -/
lemma overlay_full : ∀ (ds arr : List ℚ), arr.length = ds.length →
    overlay ds arr = arr := by
  intro ds arr
  induction arr generalizing ds with
  | nil =>
    intro h
    rcases ds with _ | ⟨d, ds⟩
    · rfl
    · simp at h
  | cons a rest ih =>
    intro h
    rcases ds with _ | ⟨d, ds⟩
    · simp at h
    · simp only [overlay]
      rw [ih ds (by simpa using h)]

end Equalizer

/-- C8: saving the equalizer settings and loading them into a fresh instance
reproduces the same enabled flag and the same 10-element gain vector; a
missing stored key or a parse failure loads the all-zero flat vector. -/
theorem C8_settings_roundtrip (s : Equalizer.EqState) (h : s.gains.length = 10) :
    Equalizer.loadSettings (Equalizer.saveSettings s).stored
      = (s.isEnabled, s.gains)
    ∧ Equalizer.loadSettings .missing = (false, List.replicate 10 0)
    ∧ Equalizer.loadSettings .corrupt = (false, List.replicate 10 0) := by
  refine ⟨?_, by decide, by decide⟩
  show Equalizer.loadSettings (.valid s.isEnabled (some s.gains)) = _
  simp only [Equalizer.loadSettings]
  rw [Equalizer.overlay_full _ _ (by rw [h]; decide)]

/-- C8 witness: a concrete enabled state with gains 1..10 round-trips through
save and fresh load. -/
theorem C8_settings_roundtrip_witness :
    Equalizer.loadSettings (Equalizer.saveSettings Equalizer.sampleState).stored
      = (Equalizer.sampleState.isEnabled, Equalizer.sampleState.gains) :=
  (C8_settings_roundtrip Equalizer.sampleState (by decide)).1

/-- C9 counterexample: a persisted duration string of `"100"` loads as
duration 100, outside `[1, 12]`, so loading does not keep the duration in
range for every stored string. -/
theorem C9_load_unclamped_counterexample :
    (Crossfade.loadSettings none (some "100") Crossfade.initialSettings).duration
      = 100
    ∧ ¬(1 ≤ (Crossfade.loadSettings none (some "100")
            Crossfade.initialSettings).duration
        ∧ (Crossfade.loadSettings none (some "100")
            Crossfade.initialSettings).duration ≤ 12) := by
  have hload : (Crossfade.loadSettings none (some "100")
      Crossfade.initialSettings).duration = ((100 : ℤ) : ℚ) := by
    have hp : Crossfade.jsParseInt "100" = some 100 := by decide
    simp [Crossfade.loadSettings, hp]
  rw [hload]
  norm_num

/-- C9 amended: `setDuration` clamps its argument into `[1, 12]` (and the
constructor default is 5), but `loadSettings` assigns the `parseInt` of any
non-empty stored duration string without clamping, so a persisted value
outside `[1, 12]` is taken as-is. -/
theorem C9_duration_amended :
    (∀ (d : ℚ) (s : Crossfade.CrossfadeSettings),
        1 ≤ (Crossfade.setDuration d s).duration
        ∧ (Crossfade.setDuration d s).duration ≤ 12)
    ∧ (∀ (se : Option String) (str : String) (n : ℤ)
        (s : Crossfade.CrossfadeSettings),
        Crossfade.jsParseInt str = some n → str ≠ "" →
        (Crossfade.loadSettings se (some str) s).duration = (n : ℚ))
    ∧ Crossfade.initialSettings.duration = 5 := by
  refine ⟨?_, ?_, rfl⟩
  · intro d s
    exact ⟨le_max_left 1 _, max_le (by norm_num) (min_le_left _ _)⟩
  · intro se str n s hp hne
    simp [Crossfade.loadSettings, hp, hne]

namespace Stats

/-- Looking up the upserted key yields the mutation applied to the previous
entry (or to the default when the key was absent). -/
lemma lookup_upsert {α : Type} (k : String) (d : α) (f : α → α) :
    ∀ m : List (String × α),
      (upsert k d f m).lookup k = some (f ((m.lookup k).getD d)) := by
  intro m
  induction m with
  | nil => simp [upsert, List.lookup]
  | cons p rest ih =>
    obtain ⟨k2, v⟩ := p
    by_cases h : k2 = k
    · subst h
      simp [upsert, List.lookup]
    · have hne : (k == k2) = false := by
        simp [Ne.symm h]
      simp [upsert, h, List.lookup, hne, ih]

/-- Committing a session never mutates anything through a second consecutive
pause: after `pauseTracking` the guard fails identically. -/
lemma pauseTracking_idem (now1 now2 : ℚ) (s : TrackerState) :
    pauseTracking now2 (pauseTracking now1 s) = pauseTracking now1 s := by
  obtain ⟨ct, st, ip, d⟩ := s
  rcases ip with _ | _
  · rfl
  · rcases ct with _ | tr
    · rfl
    · rcases st with _ | t0
      · rfl
      · simp [pauseTracking]

end Stats

/-- C6: pausing an active tracked session of strictly less than 30 elapsed
seconds only clears `isPlaying` — tracks, artists, albums, history and totals
are all unchanged; pausing a session of 30 or more seconds increments the
track's play count by exactly 1, adds the session length to the track's total
time and to the running total listen time, appends one history entry, and sets
the last-played timestamp. -/
theorem C6_stats_threshold (s : Stats.TrackerState) (tr : Stats.Track)
    (t0 now : ℚ) (hp : s.isPlaying = true) (ht : s.currentTrack = some tr)
    (h0 : s.startTime = some t0) :
    ((now - t0) / 1000 < 30 →
      Stats.pauseTracking now s = { s with isPlaying := false })
    ∧ (30 ≤ (now - t0) / 1000 →
      (Stats.pauseTracking now s).stats.tracks.lookup tr.id
          = some (Stats.bumpTrackStat ((now - t0) / 1000) now
              ((s.stats.tracks.lookup tr.id).getD (Stats.newTrackStat tr)))
      ∧ (Stats.pauseTracking now s).stats.history
          = Stats.histPush s.stats.history ⟨tr.id, now, (now - t0) / 1000⟩
      ∧ (Stats.pauseTracking now s).stats.totalListenTime
          = s.stats.totalListenTime + (now - t0) / 1000) := by
  obtain ⟨ct, st, ip, d⟩ := s
  simp only at hp ht h0
  subst hp ht h0
  constructor
  · intro hlt
    simp [Stats.pauseTracking, not_le.2 hlt]
  · intro hge
    refine ⟨?_, ?_, ?_⟩ <;>
      simp [Stats.pauseTracking, hge, Stats.updateStats, Stats.lookup_upsert]

/-- C6 witness: a 31-second session on the sample tracker adds 31 seconds to
the running total listen time. -/
theorem C6_stats_threshold_witness :
    (Stats.pauseTracking 31000 Stats.sampleTracker).stats.totalListenTime
      = Stats.sampleTracker.stats.totalListenTime + (31000 - 0) / 1000 :=
  ((C6_stats_threshold Stats.sampleTracker Stats.sampleTrack 0 31000
    rfl rfl rfl).2 (by norm_num)).2.2

namespace Stats

/-- Folding history pushes that stay within the cap just appends. -/
lemma foldl_histPush_small :
    ∀ (es : List HistEntry) (h : List HistEntry),
      h.length + es.length ≤ 1000 → List.foldl histPush h es = h ++ es := by
  intro es
  induction es with
  | nil => intro h _; simp
  | cons e rest ih =>
    intro h hlen
    simp only [List.length_cons] at hlen
    have hpush : histPush h e = h ++ [e] := by
      have hno : ¬(1000 < h.length + 1) := by omega
      simp [histPush, hno]
    simp only [List.foldl_cons, hpush]
    rw [ih (h ++ [e]) (by
      simp only [List.length_append, List.length_singleton]
      omega)]
    simp

end Stats

/-- C7: each committed session appends exactly one history entry with the
oldest evicted beyond 1000, the log never exceeds 1000 entries, and inserting
1001 entries into an empty log leaves exactly the 1000 most recent (the first
inserted entry removed). -/
theorem C7_history_bound :
    (∀ (tr : Stats.Track) (listenTime now : ℚ) (d : Stats.StatsData),
        (Stats.updateStats tr listenTime now d).history
          = Stats.histPush d.history ⟨tr.id, now, listenTime⟩)
    ∧ (∀ (h : List Stats.HistEntry) (e : Stats.HistEntry),
        h.length ≤ 1000 → (Stats.histPush h e).length ≤ 1000)
    ∧ (∀ (h : List Stats.HistEntry) (e : Stats.HistEntry),
        h.length < 1000 → Stats.histPush h e = h ++ [e])
    ∧ (∀ es : List Stats.HistEntry, es.length = 1001 →
        List.foldl Stats.histPush [] es = es.drop 1) := by
  refine ⟨fun tr lt now d => rfl, ?_, ?_, ?_⟩
  · intro h e hle
    simp only [Stats.histPush]
    split
    · rename_i hcond
      simp only [List.length_drop, List.length_append, List.length_singleton]
      omega
    · rename_i hcond
      simp only [List.length_append, List.length_singleton] at hcond ⊢
      omega
  · intro h e hlt
    have hno : ¬(1000 < h.length + 1) := by omega
    simp [Stats.histPush, hno]
  · intro es hlen
    have hne : es ≠ [] := by
      intro h
      rw [h] at hlen
      simp at hlen
    have hsplit : es.dropLast ++ [es.getLast hne] = es :=
      List.dropLast_append_getLast hne
    have hdl : es.dropLast.length = 1000 := by
      rw [List.length_dropLast, hlen]
    rw [← hsplit, List.foldl_append]
    rw [Stats.foldl_histPush_small es.dropLast [] (by simp [hdl])]
    simp only [List.foldl_cons, List.foldl_nil, List.nil_append]
    have hlong : 1000 < (es.dropLast ++ [es.getLast hne]).length := by
      simp [hdl]
    simp only [Stats.histPush]
    rw [if_pos hlong]
    have hamt : (es.dropLast ++ [es.getLast hne]).length - 1000 = 1 := by
      simp [hdl]
    rw [hamt]

/-- C10: a second consecutive `pauseTracking` — including the one inside
`stopTracking` after a pause — is a no-op on the tracker state, so a session
is never committed to the aggregates, history or totals more than once. -/
theorem C10_pause_commit_once (now1 now2 : ℚ) (s : Stats.TrackerState) :
    Stats.pauseTracking now2 (Stats.pauseTracking now1 s)
      = Stats.pauseTracking now1 s
    ∧ (Stats.stopTracking now2 (Stats.pauseTracking now1 s)).stats
        = (Stats.pauseTracking now1 s).stats := by
  refine ⟨Stats.pauseTracking_idem now1 now2 s, ?_⟩
  show (let s2 := Stats.pauseTracking now2 (Stats.pauseTracking now1 s)
    { s2 with currentTrack := none, startTime := none }).stats = _
  rw [Stats.pauseTracking_idem now1 now2 s]

namespace AutoEQ

/-- The peaking branch as a closed formula over `logb 2`. -/
lemma pk_formula (c g q t : ℝ) :
    calculateFilterResponse c g q t .PK
      = g * Real.exp (-((Real.logb 2 (t / c)) ^ 2 / q ^ 2)) := by
  simp only [calculateFilterResponse, Real.logb]
  congr 1
  ring_nf

/-- The low-shelf branch at or below the center. -/
lemma lsq_low (c g q t : ℝ) (h : t ≤ c) :
    calculateFilterResponse c g q t .LSQ = g := by
  simp [calculateFilterResponse, h]

/-- The low-shelf branch above the center. -/
lemma lsq_high (c g q t : ℝ) (h : c < t) :
    calculateFilterResponse c g q t .LSQ
      = g * Real.exp (-((Real.logb 2 (t / c)) ^ 2 / (2 * q ^ 2))) := by
  simp only [calculateFilterResponse, Real.logb, if_neg (not_le.2 h)]
  congr 1
  ring_nf

/-- The high-shelf branch at or above the center. -/
lemma hsq_high (c g q t : ℝ) (h : c ≤ t) :
    calculateFilterResponse c g q t .HSQ = g := by
  simp [calculateFilterResponse, h]

/-- The high-shelf branch below the center. -/
lemma hsq_low (c g q t : ℝ) (h : t < c) :
    calculateFilterResponse c g q t .HSQ
      = g * Real.exp (-((Real.logb 2 (c / t)) ^ 2 / (2 * q ^ 2))) := by
  simp only [calculateFilterResponse, Real.logb, if_neg (not_le.2 h)]
  congr 1
  ring_nf

end AutoEQ

/-- C4: the peaking contribution equals
`gain * exp(-(log2(targetFreq/centerFreq))^2 / Q^2)`; a single peaking filter
at 1000 Hz, +6 dB, Q = 1 converts to exactly +6 dB at the 1 kHz band, gives a
strictly smaller contribution at every other band (and, in general, strictly
smaller the further the target is in log-frequency space), and every converted
band gain lies in `[-12, 12]`. -/
theorem C4_peaking_conversion :
    (∀ c g q t : ℝ, AutoEQ.calculateFilterResponse c g q t .PK
        = g * Real.exp (-((Real.logb 2 (t / c)) ^ 2 / q ^ 2)))
    ∧ (AutoEQ.convertToGraphicEQ [AutoEQ.pk1000] AutoEQ.bandFreqsR)[4]?
        = some 6
    ∧ (∀ fq : ℚ, fq ∈ AutoEQ.bandFreqsQ → fq ≠ 1000 →
        AutoEQ.calculateFilterResponse 1000 6 1 (fq : ℝ) .PK < 6)
    ∧ (∀ t1 t2 : ℝ,
        |Real.logb 2 (t1 / 1000)| < |Real.logb 2 (t2 / 1000)| →
        AutoEQ.calculateFilterResponse 1000 6 1 t2 .PK
          < AutoEQ.calculateFilterResponse 1000 6 1 t1 .PK)
    ∧ (∀ (fs : List AutoEQ.ParamFilter) (bs : List ℝ) (x : ℝ),
        x ∈ AutoEQ.convertToGraphicEQ fs bs → -12 ≤ x ∧ x ≤ 12) := by
  have hlog2 : Real.log 2 ≠ 0 := ne_of_gt (Real.log_pos (by norm_num))
  refine ⟨AutoEQ.pk_formula, ?_, ?_, ?_, ?_⟩
  · have hcenter : AutoEQ.calculateFilterResponse 1000 6 1 (1000 : ℝ) .PK
        = 6 := by
      rw [AutoEQ.pk_formula]
      norm_num [Real.logb_one, Real.exp_zero]
    have h1 : AutoEQ.convertToGraphicEQ [AutoEQ.pk1000] AutoEQ.bandFreqsR
        = AutoEQ.bandFreqsR.map (fun f => max (-12) (min 12
            (0 + AutoEQ.calculateFilterResponse 1000 6 1 f .PK))) := rfl
    rw [h1]
    norm_num [AutoEQ.bandFreqsR, AutoEQ.bandFreqsQ, Equalizer.defaultBands,
      hcenter]
  · intro fq hmem hne
    have hpos : ∀ x ∈ AutoEQ.bandFreqsQ, (0 : ℚ) < x := by decide
    have hfq : (0 : ℝ) < (fq : ℝ) := by exact_mod_cast hpos fq hmem
    have hx : (0 : ℝ) < (fq : ℝ) / 1000 := div_pos hfq (by norm_num)
    have hne1 : (fq : ℝ) / 1000 ≠ 1 := by
      intro h
      rw [div_eq_one_iff_eq (by norm_num)] at h
      exact hne (by exact_mod_cast h)
    have hr0 : Real.logb 2 ((fq : ℝ) / 1000) ≠ 0 := by
      rw [Real.logb]
      exact div_ne_zero (Real.log_ne_zero_of_pos_of_ne_one hx hne1) hlog2
    have hsq : 0 < (Real.logb 2 ((fq : ℝ) / 1000)) ^ 2 :=
      lt_of_le_of_ne (sq_nonneg _) (Ne.symm (pow_ne_zero 2 hr0))
    rw [AutoEQ.pk_formula]
    have harg : -((Real.logb 2 ((fq : ℝ) / 1000)) ^ 2 / (1 : ℝ) ^ 2) < 0 := by
      rw [one_pow, div_one]
      linarith
    calc (6 : ℝ) * Real.exp (-((Real.logb 2 ((fq : ℝ) / 1000)) ^ 2 / 1 ^ 2))
        < 6 * 1 :=
          mul_lt_mul_of_pos_left (Real.exp_lt_one_iff.mpr harg) (by norm_num)
      _ = 6 := mul_one 6
  · intro t1 t2 habs
    rw [AutoEQ.pk_formula, AutoEQ.pk_formula]
    have hsq : (Real.logb 2 (t1 / 1000)) ^ 2 < (Real.logb 2 (t2 / 1000)) ^ 2 := by
      rw [← sq_abs (Real.logb 2 (t1 / 1000)), ← sq_abs (Real.logb 2 (t2 / 1000))]
      exact pow_lt_pow_left₀ habs (abs_nonneg _) (by norm_num)
    apply mul_lt_mul_of_pos_left _ (by norm_num : (0 : ℝ) < 6)
    apply Real.exp_lt_exp.mpr
    rw [one_pow, div_one, div_one]
    linarith
  · intro fs bs x hx
    rcases List.mem_map.mp hx with ⟨f, _, rfl⟩
    exact ⟨le_max_left _ _, max_le (by norm_num) (min_le_left _ _)⟩


/-- C5 counterexample: at a low shelf centered at 100 Hz with gain 6 and
Q = 1, the code's contribution at 200 Hz is `6 * exp(-1/2)`, not the peaking
formula's `6 * exp(-(log2(200/100))^2 / 1^2) = 6 * exp(-1)`: the shelf decay
divides by `2*Q^2`, not `Q^2`. -/
theorem C5_shelf_decay_counterexample :
    AutoEQ.calculateFilterResponse 100 6 1 200 .LSQ
      ≠ 6 * Real.exp (-((Real.logb 2 ((200 : ℝ) / 100)) ^ 2 / (1 : ℝ) ^ 2)) := by
  have h200 : ((100 : ℝ)) < 200 := by norm_num
  rw [AutoEQ.lsq_high 100 6 1 200 h200]
  have hdiv : ((200 : ℝ)) / 100 = 2 := by norm_num
  have hlogb : Real.logb 2 ((200 : ℝ) / 100) = 1 := by
    rw [hdiv, Real.logb, div_self (ne_of_gt (Real.log_pos (by norm_num)))]
  rw [hlogb]
  intro h
  have h6 : (6 : ℝ) ≠ 0 := by norm_num
  have hexp := mul_left_cancel₀ h6 h
  have harg := Real.exp_eq_exp.mp hexp
  norm_num at harg

/-- C5 amended: the low shelf contributes the full gain at or below the shelf
center and, above it, decays as
`gain * exp(-(log2(targetFreq/centerFreq))^2 / (2*Q^2))` — the peaking bell
with denominator `2*Q^2` rather than the peaking formula's `Q^2`; the high
shelf is the exact mirror, full gain at or above center with the same
`2*Q^2` decay below it. -/
theorem C5_shelf_response_amended :
    (∀ c g q t : ℝ, t ≤ c → AutoEQ.calculateFilterResponse c g q t .LSQ = g)
    ∧ (∀ c g q t : ℝ, c < t → AutoEQ.calculateFilterResponse c g q t .LSQ
        = g * Real.exp (-((Real.logb 2 (t / c)) ^ 2 / (2 * q ^ 2))))
    ∧ (∀ c g q t : ℝ, c ≤ t → AutoEQ.calculateFilterResponse c g q t .HSQ = g)
    ∧ (∀ c g q t : ℝ, t < c → AutoEQ.calculateFilterResponse c g q t .HSQ
        = g * Real.exp (-((Real.logb 2 (c / t)) ^ 2 / (2 * q ^ 2)))) :=
  ⟨AutoEQ.lsq_low, AutoEQ.lsq_high, AutoEQ.hsq_high, AutoEQ.hsq_low⟩
